import Mathlib

/-
Verification development for the PlannerX Google-calendar sync engine.

Shallow embedding of the sync-relevant parts of
  backend/src/routes/google.ts   (inbound pull `syncFromGoogle`, `POST /watch`,
                                  `POST /sync-now`, `normalizeAllDayDate`), and
  backend/src/routes/events.ts   (outbound propagation `syncToGoogle`,
                                  `deleteFromGoogle`, `mapEventToGoogle`,
                                  `getCalendarClientForUser`, event CRUD glue).

Modelling conventions:
* Instants are minutes since the Unix epoch (`Int`); calendar dates (date-only
  values such as Google's all-day `date` fields) are day numbers since the
  epoch (`Int`).  All operations the code performs on JS `Date` values
  (take the UTC calendar date of an instant, parse a date-only string to
  midnight UTC, add days to a date, set the time-of-day to 12:00 UTC) commute
  with this day-number representation, so nothing is lost by it.
* JS strings that the code tests for truthiness are modelled as
  `Option String`, with `none` for null/undefined; an empty string is falsy,
  which `truthyStr` captures.
* The Prisma tables (Event, GoogleAccount, GoogleChannel) are lists of
  records; primary-key ids of events are a `Nat` counter.
* Remote responses are given as data: a pull's Google `events.list` responses
  are a `List GPage` consumed page by page (the do/while loop re-issues the
  list call while `nextPageToken` is truthy); outbound insert/patch results
  are supplied by a `RemoteCalendar` record whose operations may fail, which
  models a thrown exception from the googleapis client.
-/

namespace PlannerX

/-- Minutes in a civil day; instants are minutes since the epoch. -/
def minutesPerDay : Int := 1440

/-- UTC calendar date (day number) of an instant, i.e. what
`d.getUTCFullYear()/getUTCMonth()/getUTCDate()` extract from a JS `Date`. -/
def dayOfInstant (t : Int) : Int := Int.fdiv t minutesPerDay

/-- `normalizeAllDayDate` (google.ts:664 and events.ts): parse the value, take
its UTC calendar date and return that date at 12:00:00 UTC. -/
def normalizeAllDayDate (t : Int) : Int := dayOfInstant t * minutesPerDay + 720

/-- JS truthiness of a nullable string: null/undefined and "" are falsy. -/
def truthyStr : Option String → Bool
  | none => false
  | some s => !(s = "")

/-- `x || null` / `x || undefined` on a nullable string. -/
def orNull (a : Option String) : Option String := if truthyStr a then a else none

/-- `a || b` on nullable strings (JS short-circuit or). -/
def jsOr (a b : Option String) : Option String := if truthyStr a then a else b

/-- A row of the Event table (the sync-relevant columns of the Prisma model). -/
structure Event where
  id : Nat
  userId : String
  title : String
  description : Option String
  location : Option String
  startTime : Int
  endTime : Int
  allDay : Bool
  isRecurring : Bool
  isFocusBlock : Bool
  categoryId : Option String
  color : Option String
  recurrenceRule : Option String
  recurrenceEnd : Option Int
  googleEventId : Option String
  googleCalendarId : Option String
  googleEtag : Option String
  deriving Repr, DecidableEq

/-- A row of the GoogleChannel table (SyncChannel). -/
structure Channel where
  channelId : String
  resourceId : String
  userId : String
  calendarId : String
  expiration : Int
  syncToken : Option String
  deriving Repr, DecidableEq

/-- A row of the GoogleAccount table (CredentialRecord). -/
structure Account where
  userId : String
  selectedCalendarId : Option String
  accessToken : String
  refreshToken : Option String
  deriving Repr, DecidableEq

/-- The persistent store visible to the sync engine. -/
structure Db where
  events : List Event
  channels : List Channel
  accounts : List Account
  nextEventId : Nat
  deriving Repr, DecidableEq

/-- `prisma.googleAccount.findUnique({ where: { userId } })` (userId is unique). -/
def findAccount (db : Db) (userId : String) : Option Account :=
  db.accounts.find? (fun a => a.userId = userId)

/-- A remote item's `start`/`end` object: optional `dateTime` (an instant) and
optional date-only `date` (a day number). -/
structure GTime where
  dateTime : Option Int
  date : Option Int
  deriving Repr, DecidableEq

/-- A remote calendar item as returned by Google `events.list`. -/
structure GItem where
  id : Option String
  status : Option String
  summary : Option String
  description : Option String
  location : Option String
  start : Option GTime
  end_ : Option GTime
  recurringEventId : Option String
  etag : Option String
  deriving Repr, DecidableEq

/-- One page of a Google `events.list` response. -/
structure GPage where
  items : List GItem
  nextPageToken : Option String
  nextSyncToken : Option String
  deriving Repr, DecidableEq

/-- `item.start?.dateTime || item.start?.date` as the instant the later
`new Date(...)` parse yields: a date-only value parses to midnight UTC of its
day.  A present field stands for a non-empty (truthy) string. -/
def rawTime : Option GTime → Option Int
  | none => none
  | some g =>
    match g.dateTime with
    | some t => some t
    | none => g.date.map (fun d => d * minutesPerDay)

/-- `!!item.start?.date`. -/
def hasDateOnly (g : Option GTime) : Bool := (g.bind GTime.date).isSome

/-- An entry of `validEvents` (google.ts:495): an active, well-formed item. -/
structure VEvent where
  id : String
  summary : Option String
  description : Option String
  location : Option String
  start : Int
  end_ : Int
  allDay : Bool
  recurringEventId : Option String
  etag : Option String
  deriving Repr, DecidableEq

/-- The per-item classification loop of `syncFromGoogle` (google.ts:508-537):
skip items with a falsy id, collect cancelled ids, skip active items whose
start or end value is missing, collect the rest as `validEvents`. -/
def classifyItems : List GItem → List String × List VEvent
  | [] => ([], [])
  | item :: rest =>
    let acc := classifyItems rest
    match item.id with
    | none => acc
    | some iid =>
      if iid = "" then acc
      else if item.status = some "cancelled" then (iid :: acc.1, acc.2)
      else
        match rawTime item.start, rawTime item.end_ with
        | some s, some e =>
          (acc.1,
            { id := iid
              summary := item.summary
              description := orNull item.description
              location := orNull item.location
              start := s
              end_ := e
              allDay := hasDateOnly item.start
              recurringEventId := item.recurringEventId
              etag := orNull item.etag } :: acc.2)
        | _, _ => acc

/-- Does an event row match the batch delete of cancelled items
(`prisma.event.deleteMany({ where: { userId, googleEventId: { in: ids } } })`,
google.ts:541)? -/
def matchesCancelled (userId : String) (ids : List String) (e : Event) : Bool :=
  e.userId = userId &&
    (match e.googleEventId with
     | some g => ids.contains g
     | none => false)

/-- The `existingMap` lookup (google.ts:552-559): the batch
`findMany({ where: { userId, googleEventId: { in: validIds } } })` feeds a JS
`Map` keyed by googleEventId, in which a later entry overwrites an earlier
one, so a lookup returns the id of the last matching row in table order. -/
def findExisting (db : List Event) (userId gid : String) : Option Nat :=
  ((db.filter (fun e => e.userId = userId && e.googleEventId = some gid)).getLast?).map
    Event.id

/-- The `eventData` object built for each valid event (google.ts:572-582). -/
structure EventData where
  title : String
  description : Option String
  location : Option String
  startTime : Int
  endTime : Int
  allDay : Bool
  isRecurring : Bool
  googleCalendarId : String
  googleEtag : Option String
  deriving Repr, DecidableEq

/-- Build `eventData` from a valid event (google.ts:568-582): all-day values go
through `normalizeAllDayDate`, the title falls back to "Untitled event",
`isRecurring` is the truthiness of `recurringEventId`. -/
def mkEventData (calendarId : String) (ev : VEvent) : EventData :=
  { title := (orNull ev.summary).getD "Untitled event"
    description := ev.description
    location := ev.location
    startTime := if ev.allDay then normalizeAllDayDate ev.start else ev.start
    endTime := if ev.allDay then normalizeAllDayDate ev.end_ else ev.end_
    allDay := ev.allDay
    isRecurring := truthyStr ev.recurringEventId
    googleCalendarId := calendarId
    googleEtag := ev.etag }

/-- `prisma.event.update({ where: { id }, data: eventData })` on one row
(google.ts:585-588): exactly the `eventData` columns are written; every other
column of the row is untouched. -/
def applyEventData (e : Event) (d : EventData) : Event :=
  { e with
    title := d.title
    description := d.description
    location := d.location
    startTime := d.startTime
    endTime := d.endTime
    allDay := d.allDay
    isRecurring := d.isRecurring
    googleCalendarId := some d.googleCalendarId
    googleEtag := d.googleEtag }

/-- `prisma.event.create` for a new remote-sourced row (google.ts:591-598):
`eventData` plus `userId`, `googleEventId` and `isFocusBlock: false`; columns
not mentioned take their schema defaults (null). -/
def createdEvent (nextId : Nat) (userId gid : String) (d : EventData) : Event :=
  { id := nextId
    userId := userId
    title := d.title
    description := d.description
    location := d.location
    startTime := d.startTime
    endTime := d.endTime
    allDay := d.allDay
    isRecurring := d.isRecurring
    isFocusBlock := false
    categoryId := none
    color := none
    recurrenceRule := none
    recurrenceEnd := none
    googleEventId := some gid
    googleCalendarId := some d.googleCalendarId
    googleEtag := d.googleEtag }

/-- Mutable state threaded through one `syncFromGoogle` invocation: the event
table, the fresh-id counter, and the observability counters of google.ts. -/
structure SyncState where
  events : List Event
  nextId : Nat
  created : Nat
  updated : Nat
  deleted : Nat
  total : Nat
  calls : Nat
  deriving Repr, DecidableEq

/-- One upsert of the batched loop (google.ts:563-610).  The existence check
uses the page-start `existingMap` snapshot, not the live table. -/
def upsertOne (userId calendarId : String) (snapshot : List Event)
    (st : SyncState) (ev : VEvent) : SyncState :=
  let d := mkEventData calendarId ev
  match findExisting snapshot userId ev.id with
  | some eid =>
    { st with
      events := st.events.map (fun e => if e.id = eid then applyEventData e d else e)
      updated := st.updated + 1 }
  | none =>
    { st with
      events := st.events ++ [createdEvent st.nextId userId ev.id d]
      nextId := st.nextId + 1
      created := st.created + 1 }

/-- The batched upsert loop over a page's `validEvents`.  The `BATCH_SIZE`
grouping and `Promise.allSettled` only bound concurrency; each upsert acts on
its own row keyed by the page-start snapshot, so the sequential order below is
the observable behaviour. -/
def upsertBatch (userId calendarId : String) (snapshot : List Event) :
    SyncState → List VEvent → SyncState
  | st, [] => st
  | st, ev :: rest =>
    upsertBatch userId calendarId snapshot (upsertOne userId calendarId snapshot st ev) rest

/-- Process the items of one fetched page (google.ts:493-613): classify,
batch-delete cancelled ids, snapshot the existing rows, batch-upsert.
The `cancelledEventIds.length > 0` guard before `deleteMany` is behaviourally
the identity when the list is empty, so the filter is applied unconditionally. -/
def processPage (userId calendarId : String) (st : SyncState) (items : List GItem) :
    SyncState :=
  let cls := classifyItems items
  let removed := st.events.filter (matchesCancelled userId cls.1)
  let kept := st.events.filter (fun e => !(matchesCancelled userId cls.1 e))
  let afterDel : SyncState :=
    { st with events := kept, deleted := st.deleted + removed.length }
  upsertBatch userId calendarId afterDel.events afterDel cls.2

/-- The do/while pagination loop (google.ts:456-615): fetch a page (one
`events.list` call), remember a truthy `nextSyncToken`, process the items,
and continue while `nextPageToken` is truthy.  The accumulated token is
returned beside the state. -/
def syncPages (userId calendarId : String) :
    List GPage → SyncState → Option String → SyncState × Option String
  | [], st, tok => (st, tok)
  | p :: rest, st, tok =>
    let tok' := if truthyStr p.nextSyncToken then p.nextSyncToken else tok
    let st' := processPage userId calendarId
      { st with total := st.total + p.items.length, calls := st.calls + 1 } p.items
    if truthyStr p.nextPageToken then syncPages userId calendarId rest st' tok'
    else (st', tok')

/-- The summary a completed pull reports (the counters logged at
google.ts:617-632 plus the accumulated token). -/
structure SyncResult where
  total : Nat
  created : Nat
  updated : Nat
  deleted : Nat
  nextSyncToken : Option String
  deriving Repr, DecidableEq

/-- Outcome of one `syncFromGoogle` invocation: the store afterwards, the
report (`none` when the pull aborted early on a missing account — google.ts
436-439 logs and returns), and the number of remote `events.list` calls made. -/
structure SyncOutcome where
  db : Db
  result : Option SyncResult
  listCalls : Nat
  deriving Repr, DecidableEq

/-- `googleChannel.update({ where: { channelId }, data: { syncToken } })`. -/
def setChannelToken (chs : List Channel) (cid tok : String) : List Channel :=
  chs.map (fun c => if c.channelId = cid then { c with syncToken := some tok } else c)

/-- `syncFromGoogle` (google.ts:412-645).  The account is looked up first; a
missing account aborts before any remote call or store mutation.  Otherwise
the paginated loop runs over the remote's responses and, when a truthy
`nextSyncToken` was accumulated and a truthy `channelId` was supplied, the
token is persisted onto that channel.  The `syncToken`/`forceFull`/
`daysWindow` arguments only shape the remote request (incremental vs
time-window mode, google.ts:466-476); the responses themselves are the
`remote` argument, so those parameters are threaded but have no further
observable effect here. -/
def syncFromGoogle (db : Db) (userId calendarId : String) (channelId : Option String)
    (syncToken : Option String) (forceFull : Bool) (remote : List GPage) : SyncOutcome :=
  match findAccount db userId with
  | none => { db := db, result := none, listCalls := 0 }
  | some _ =>
    let st0 : SyncState :=
      { events := db.events, nextId := db.nextEventId
        created := 0, updated := 0, deleted := 0, total := 0, calls := 0 }
    let out := syncPages userId calendarId remote st0 none
    let st := out.1
    let tok := out.2
    let channels' :=
      match tok with
      | some t =>
        if truthyStr (some t) && truthyStr channelId then
          setChannelToken db.channels (channelId.getD "") t
        else db.channels
      | none => db.channels
    { db := { db with events := st.events, channels := channels', nextEventId := st.nextId }
      result := some
        { total := st.total, created := st.created, updated := st.updated
          deleted := st.deleted, nextSyncToken := tok }
      listCalls := st.calls }

-- The `forceFull`/`syncToken` arguments are part of the signature for
-- faithfulness; the compiler warning about them being unused is expected.

/-- An HTTP response of the sync routes, reduced to what the client sees. -/
inductive HttpResp
  | ok200
  | err400 (msg : String)
  | err500 (msg : String)
  deriving Repr, DecidableEq

/-- Outcome of the `POST /sync-now` handler. -/
structure SyncNowOutcome where
  db : Db
  resp : HttpResp
  listCalls : Nat
  deriving Repr, DecidableEq

/-- `googleChannel.findFirst({ where: { userId, calendarId } })`. -/
def findChannelFor (db : Db) (userId calendarId : String) : Option Channel :=
  db.channels.find? (fun c => c.userId = userId && c.calendarId = calendarId)

/-- The `POST /sync-now` handler (google.ts:320-368): a missing account or
missing selected calendar is answered with a 400 before any pull; otherwise
the pull runs with the channel's stored token (`forceFull` when there is
none) and a 200 is returned. -/
def syncNowRoute (db : Db) (userId : String) (remote : List GPage) : SyncNowOutcome :=
  match findAccount db userId with
  | none => { db := db, resp := .err400 "No connected Google calendar", listCalls := 0 }
  | some account =>
    if truthyStr account.selectedCalendarId then
      let calId := account.selectedCalendarId.getD ""
      let channel := findChannelFor db userId calId
      let o := syncFromGoogle db userId calId
        (channel.map Channel.channelId)
        (channel.bind Channel.syncToken)
        (!truthyStr (channel.bind Channel.syncToken))
        remote
      { db := o.db, resp := .ok200, listCalls := o.listCalls }
    else { db := db, resp := .err400 "No connected Google calendar", listCalls := 0 }

/-- The data the `POST /watch` handler persists for the new channel
(google.ts:256-292). -/
structure ChannelData where
  userId : String
  calendarId : String
  channelId : String
  resourceId : String
  expiration : Int
  syncToken : Option String
  deriving Repr, DecidableEq

/-- Prisma update semantics for `syncToken: syncToken || undefined`: a falsy
token leaves the stored column unchanged, a truthy one overwrites it. -/
def updToken (old new_ : Option String) : Option String :=
  if truthyStr new_ then new_ else old

/-- `googleChannel.upsert({ where: { channelId }, create, update })`
(google.ts:257-273) against a table with unique `channelId` and unique
`resourceId` columns: if a row with this channelId exists it is updated,
otherwise a row is created; a create (or an update moving `resourceId`) that
would duplicate an existing `resourceId` raises the P2002 unique-constraint
error instead. -/
def channelUpsertByChannelId (chs : List Channel) (d : ChannelData) :
    Except String (List Channel) :=
  match chs.find? (fun c => c.channelId = d.channelId) with
  | some _ =>
    if chs.any (fun c => c.channelId ≠ d.channelId && c.resourceId = d.resourceId) then
      .error "P2002:resourceId"
    else
      .ok (chs.map (fun c =>
        if c.channelId = d.channelId then
          { c with calendarId := d.calendarId, resourceId := d.resourceId
                   expiration := d.expiration
                   syncToken := updToken c.syncToken d.syncToken }
        else c))
  | none =>
    if chs.any (fun c => c.resourceId = d.resourceId) then .error "P2002:resourceId"
    else
      .ok (chs ++
        [{ channelId := d.channelId, resourceId := d.resourceId, userId := d.userId
           calendarId := d.calendarId, expiration := d.expiration
           syncToken := orNull d.syncToken }])

/-- The try/catch around the channel save in `POST /watch` (google.ts:256-292):
a P2002 collision on `resourceId` falls back to
`googleChannel.update({ where: { resourceId }, data: {...} })`, rewriting the
existing row keyed by that resourceId in place (its `resourceId` column is not
part of the update data). -/
def saveWatchChannel (chs : List Channel) (d : ChannelData) : List Channel :=
  match channelUpsertByChannelId chs d with
  | .ok chs' => chs'
  | .error _ =>
    chs.map (fun c =>
      if c.resourceId = d.resourceId then
        { c with userId := d.userId, calendarId := d.calendarId
                 channelId := d.channelId, expiration := d.expiration
                 syncToken := updToken c.syncToken d.syncToken }
      else c)

/-- `toLocalDateOnly` (events.ts): shift the instant by the negated
`getTimezoneOffset()` (in minutes, `tz`) and take the UTC calendar date of the
shifted instant (`toISOString().split('T')[0]`). -/
def toLocalDateOnly (tz : Int) (t : Int) : Int := dayOfInstant (t - tz)

/-- `addDaysDateOnly` (events.ts): parse the date-only value at midnight UTC,
add the days with `setUTCDate`, and format back; on a missing value return
undefined. -/
def addDaysDateOnly (dateOnly : Option Int) (days : Int) : Option Int :=
  dateOnly.map (fun d => d + days)

/-- A `start`/`end` value of the body sent to Google: date-only for all-day
events, an instant otherwise. -/
inductive GBound
  | date (day : Int)
  | dateTime (t : Int)
  deriving Repr, DecidableEq

/-- The request body built by `mapEventToGoogle` (events.ts:287-308). -/
structure GoogleEventBody where
  summary : String
  description : Option String
  location : Option String
  start : GBound
  end_ : GBound
  deriving Repr, DecidableEq

/-- `mapEventToGoogle` (events.ts:287-308): all-day events become date-only
values via `toLocalDateOnly`, with the end bumped one day because Google
treats the all-day end date as exclusive; timed events carry their instants.
For an all-day event both date-only values are defined, so
`addDaysDateOnly(endDateOnly || startDateOnly, 1)` reduces to the end date
plus one. -/
def mapEventToGoogle (tz : Int) (e : Event) : GoogleEventBody :=
  if e.allDay then
    { summary := e.title
      description := orNull e.description
      location := orNull e.location
      start := .date (toLocalDateOnly tz e.startTime)
      end_ := .date (toLocalDateOnly tz e.endTime + 1) }
  else
    { summary := e.title
      description := orNull e.description
      location := orNull e.location
      start := .dateTime e.startTime
      end_ := .dateTime e.endTime }

/-- What a successful Google insert/patch answers with. -/
structure GoogleApiResult where
  id : Option String
  etag : Option String
  deriving Repr, DecidableEq

/-- Outcome of one remote calendar call: a response, or a thrown exception. -/
inductive RemoteOutcome
  | ok (r : GoogleApiResult)
  | fail (msg : String)
  deriving Repr, DecidableEq

/-- The behaviour of the remote calendar client for outbound calls. -/
structure RemoteCalendar where
  insertResult : GoogleEventBody → RemoteOutcome
  patchResult : String → GoogleEventBody → RemoteOutcome
  deleteResult : String → RemoteOutcome

/-- A remote call issued by outbound propagation (for stating that none, or
which, remote calls happen). -/
inductive RemoteOp
  | insert (calendarId : String) (body : GoogleEventBody)
  | patch (calendarId eventId : String) (body : GoogleEventBody)
  | delete (calendarId eventId : String)
  deriving Repr, DecidableEq

/-- `getCalendarClientForUser` (events.ts:271-285): null when the user has no
GoogleAccount row or no (truthy) `selectedCalendarId`; otherwise the account. -/
def getCalendarClientForUser (db : Db) (userId : String) : Option Account :=
  match findAccount db userId with
  | none => none
  | some a => if truthyStr a.selectedCalendarId then some a else none

/-- Write the remote linkage columns back onto a local row
(`prisma.event.update` at events.ts:339-346). -/
def setEventGoogleFields (events : List Event) (eid : Nat)
    (gid calendarId : String) (etag : Option String) : List Event :=
  events.map (fun e =>
    if e.id = eid then
      { e with googleEventId := some gid, googleCalendarId := some calendarId
               googleEtag := etag }
    else e)

/-- `syncToGoogle` (events.ts:310-351): a no-op without a usable client;
otherwise patch (when the event carries a truthy googleEventId) or insert,
then persist the remote id/calendar/etag onto the row.  The whole remote
interaction sits in a try/catch whose handler only logs, so a thrown remote
call leaves the store untouched and never propagates; the function returns
the store plus the list of remote calls it issued. -/
def syncToGoogle (tz : Int) (remote : RemoteCalendar) (db : Db) (userId : String)
    (event : Event) : Db × List RemoteOp :=
  match getCalendarClientForUser db userId with
  | none => (db, [])
  | some account =>
    let calendarId := account.selectedCalendarId.getD ""
    let body := mapEventToGoogle tz event
    if truthyStr event.googleEventId then
      let gid := event.googleEventId.getD ""
      match remote.patchResult gid body with
      | .ok r =>
        let etag := jsOr r.etag event.googleEtag
        ({ db with events := setEventGoogleFields db.events event.id gid calendarId etag },
          [.patch calendarId gid body])
      | .fail _ => (db, [.patch calendarId gid body])
    else
      match remote.insertResult body with
      | .ok r =>
        let etag := jsOr r.etag event.googleEtag
        match orNull r.id with
        | some gid =>
          ({ db with events := setEventGoogleFields db.events event.id gid calendarId etag },
            [.insert calendarId body])
        | none => (db, [.insert calendarId body])
      | .fail _ => (db, [.insert calendarId body])

/-- `deleteFromGoogle` (events.ts:353-368): a no-op without a usable client or
when the event has no (truthy) googleEventId; otherwise one remote delete,
whose failure is swallowed.  The local store is never touched. -/
def deleteFromGoogle (remote : RemoteCalendar) (db : Db) (userId : String)
    (event : Event) : Db × List RemoteOp :=
  match getCalendarClientForUser db userId with
  | none => (db, [])
  | some account =>
    let calendarId := account.selectedCalendarId.getD ""
    if truthyStr event.googleEventId then
      (db, [.delete calendarId (event.googleEventId.getD "")])
    else (db, [])

/-- `normalizeNullableId` (events.ts): null, "" and "none" become null. -/
def normalizeNullableId (v : Option String) : Option String :=
  match v with
  | none => none
  | some s => if s = "" || s = "none" then none else some s

/-- The validated body of `POST /events` (events.ts eventSchema). -/
structure EventInput where
  title : String
  description : Option String
  location : Option String
  startTime : Int
  endTime : Int
  allDay : Option Bool
  isFocusBlock : Option Bool
  categoryId : Option String
  color : Option String
  isRecurring : Option Bool
  recurrenceRule : Option String
  recurrenceEnd : Option Int
  deriving Repr, DecidableEq

/-- The local create of `POST /events` (events.ts:112-154) before outbound
propagation: all-day times are normalised to noon UTC, defaults applied, and
the row committed to the store. -/
def createEvent (db : Db) (userId : String) (d : EventInput) : Db × Event :=
  let allDay := d.allDay.getD false
  let ev : Event :=
    { id := db.nextEventId
      userId := userId
      title := d.title
      description := d.description
      location := d.location
      startTime := if allDay then normalizeAllDayDate d.startTime else d.startTime
      endTime := if allDay then normalizeAllDayDate d.endTime else d.endTime
      allDay := allDay
      isRecurring := d.isRecurring.getD false
      isFocusBlock := d.isFocusBlock.getD false
      categoryId := normalizeNullableId d.categoryId
      color := d.color
      recurrenceRule := d.recurrenceRule
      recurrenceEnd := d.recurrenceEnd
      googleEventId := none
      googleCalendarId := none
      googleEtag := none }
  ({ db with events := db.events ++ [ev], nextEventId := db.nextEventId + 1 }, ev)

/-- Outcome of the `POST /events` route: the store, the committed row the
client receives with the 201, and the remote calls issued. -/
structure RouteOutcome where
  db : Db
  event : Event
  ops : List RemoteOp
  deriving Repr

/-- The `POST /events` handler (events.ts:112-154): commit the local create,
then `await syncToGoogle(...)`, then answer 201 with the created row. -/
def createEventRoute (tz : Int) (remote : RemoteCalendar) (db : Db) (userId : String)
    (d : EventInput) : RouteOutcome :=
  let c := createEvent db userId d
  let s := syncToGoogle tz remote c.1 userId c.2
  { db := s.1, event := c.2, ops := s.2 }

/-! Section: Concrete fixtures used by witnesses and counterexamples -/

/-- A linked account for user "u" with calendar "cal" selected. -/
def cAccount : Account := ⟨"u", some "cal", "tk", none⟩

/-- Day number of 2024-03-01 (days since 1970-01-01). -/
def day240301 : Int := 19783

/-- A local all-day event on 2024-03-01, both bounds at the canonical
noon-UTC instant, already linked to remote event "gX". -/
def cAlldayEvent : Event :=
  ⟨0, "u", "A", none, none, day240301 * 1440 + 720, day240301 * 1440 + 720, true,
    false, false, some "catX", some "red", none, none, some "gX", some "cal", none⟩

/-- A store holding `cAlldayEvent` for the linked user. -/
def cDb : Db := ⟨[cAlldayEvent], [], [cAccount], 1⟩

/-- An empty store for the linked user. -/
def cDbEmpty : Db := ⟨[], [], [cAccount], 5⟩

/-- The remote date-only item that `mapEventToGoogle` produces for
`cAlldayEvent`: start date 2024-03-01, (exclusive) end date 2024-03-02. -/
def cPulledItem : GItem :=
  ⟨some "gX", none, some "A", none, none, some ⟨none, some day240301⟩,
    some ⟨none, some (day240301 + 1)⟩, none, some "e2"⟩

/-- A well-formed timed remote item with the given id. -/
def cTimedItem (n : String) : GItem :=
  ⟨some n, none, some n, none, none, some ⟨some 100, none⟩, some ⟨some 160, none⟩, none, none⟩

/-- An active remote item whose start value is missing. -/
def cBadItem : GItem :=
  ⟨some "bad", none, some "B", none, none, none, some ⟨some 160, none⟩, none, none⟩

/-- A cancelled remote item for event id "gX". -/
def cCancelledItem : GItem :=
  ⟨some "gX", some "cancelled", none, none, none, none, none, none, none⟩

/-- A watch channel "ch1" on resource "r1". -/
def cChannel : Channel := ⟨"ch1", "r1", "u", "cal", 0, some "old"⟩

/-- A store with the channel but no events. -/
def cDbChan : Db := ⟨[], [cChannel], [cAccount], 0⟩

/-- A three-page remote response; only page 3 carries a `nextSyncToken`. -/
def cPages3 : List GPage :=
  [⟨[cTimedItem "a"], some "p2", none⟩, ⟨[cTimedItem "b"], some "p3", none⟩,
    ⟨[cTimedItem "c"], none, some "TOK3"⟩]

/-- A remote calendar client every call of which throws. -/
def cFailRemote : RemoteCalendar :=
  ⟨fun _ => .fail "network", fun _ _ => .fail "network", fun _ => .fail "network"⟩

/-- A simple event-creation request body. -/
def cInput : EventInput := ⟨"N", none, none, 10, 20, none, none, none, none, none, none, none⟩

/-! Section: C9 — inbound update writes only remote-sourced fields -/

/-- C9: an inbound upsert that updates an existing row writes exactly the
remote-sourced fields (title, description, location, startTime, endTime,
allDay, isRecurring, googleCalendarId, googleEtag) — `applyEventData` is the
row transformation the update performs — while the locally-authored fields
(categoryId, color, isFocusBlock, recurrenceRule, recurrenceEnd) and the
row's identity (id, userId, googleEventId) are left unchanged; `isFocusBlock`
is set, to false, only on the create path (`createdEvent`). -/
theorem inbound_update_frame (e : Event) (d : EventData) (n : Nat) (u g : String)
    (d2 : EventData) :
    ((applyEventData e d).title = d.title ∧
      (applyEventData e d).description = d.description ∧
      (applyEventData e d).location = d.location ∧
      (applyEventData e d).startTime = d.startTime ∧
      (applyEventData e d).endTime = d.endTime ∧
      (applyEventData e d).allDay = d.allDay ∧
      (applyEventData e d).isRecurring = d.isRecurring ∧
      (applyEventData e d).googleCalendarId = some d.googleCalendarId ∧
      (applyEventData e d).googleEtag = d.googleEtag) ∧
    ((applyEventData e d).id = e.id ∧
      (applyEventData e d).userId = e.userId ∧
      (applyEventData e d).categoryId = e.categoryId ∧
      (applyEventData e d).color = e.color ∧
      (applyEventData e d).isFocusBlock = e.isFocusBlock ∧
      (applyEventData e d).recurrenceRule = e.recurrenceRule ∧
      (applyEventData e d).recurrenceEnd = e.recurrenceEnd ∧
      (applyEventData e d).googleEventId = e.googleEventId) ∧
    (createdEvent n u g d2).isFocusBlock = false :=
  ⟨⟨rfl, rfl, rfl, rfl, rfl, rfl, rfl, rfl, rfl⟩,
    ⟨rfl, rfl, rfl, rfl, rfl, rfl, rfl, rfl⟩, rfl⟩

/-! Section: C3 — the all-day round trip does not close -/

/-- C3 counterexample (code bug): a local all-day event on 2024-03-01 with
both bounds at noon UTC maps outward to date-only start 2024-03-01 and
exclusive end 2024-03-02, as claimed; but pulling that remote item back
stores `endTime` at noon UTC of 2024-03-02 — `normalizeAllDayDate` is applied
to the exclusive end date without decrementing it — so the local event does
not come back with start = end = 2024-03-01T12:00Z.  Each outbound/inbound
cycle therefore grows the event's end by one day. -/
theorem allday_roundtrip_end_drifts :
    (mapEventToGoogle 0 cAlldayEvent).start = GBound.date day240301 ∧
    (mapEventToGoogle 0 cAlldayEvent).end_ = GBound.date (day240301 + 1) ∧
    ((syncFromGoogle cDb "u" "cal" none none false
        [⟨[cPulledItem], none, none⟩]).db.events.map Event.startTime
      = [day240301 * 1440 + 720]) ∧
    ((syncFromGoogle cDb "u" "cal" none none false
        [⟨[cPulledItem], none, none⟩]).db.events.map Event.endTime
      = [(day240301 + 1) * 1440 + 720]) ∧
    (day240301 + 1) * 1440 + 720 ≠ day240301 * 1440 + 720 := by
  refine ⟨by decide, by decide, by decide, by decide, by decide⟩

/-! Section: C6 — outbound failures are isolated -/

/-- C6: when the remote calendar call throws (failing insert and patch), the
exception is swallowed inside `syncToGoogle`: the store is returned unchanged,
and the `POST /events` route still ends with the row committed by the local
create, present in the store it answers from. -/
theorem outbound_failure_isolation (tz : Int) (remote : RemoteCalendar) (db : Db)
    (u : String) (e : Event) (d : EventInput) (m m2 : String)
    (hIns : ∀ b, remote.insertResult b = .fail m)
    (hPat : ∀ g b, remote.patchResult g b = .fail m2) :
    (syncToGoogle tz remote db u e).1 = db ∧
    (createEventRoute tz remote db u d).db = (createEvent db u d).1 ∧
    (createEventRoute tz remote db u d).event ∈ (createEventRoute tz remote db u d).db.events := by
  have hsync : ∀ (db' : Db) (e' : Event), (syncToGoogle tz remote db' u e').1 = db' := by
    intro db' e'
    unfold syncToGoogle
    cases hc : getCalendarClientForUser db' u with
    | none => rfl
    | some a =>
      by_cases hg : truthyStr e'.googleEventId = true
      · simp only [hg, if_pos, hPat]
      · simp only [hg, if_neg, Bool.not_eq_true, hIns]
  refine ⟨hsync db e, ?_, ?_⟩
  · show (syncToGoogle tz remote (createEvent db u d).1 u (createEvent db u d).2).1 = _
    exact hsync _ _
  · show (createEvent db u d).2 ∈ (syncToGoogle tz remote (createEvent db u d).1 u (createEvent db u d).2).1.events
    rw [hsync]
    show (createEvent db u d).2 ∈ db.events ++ [(createEvent db u d).2]
    simp

/-- C6 witness: the failing remote at the concrete fixtures. -/
theorem outbound_failure_isolation_witness :
    (∀ b, cFailRemote.insertResult b = .fail "network") ∧
    (∀ g b, cFailRemote.patchResult g b = .fail "network") ∧
    ((syncToGoogle 0 cFailRemote cDb "u" cAlldayEvent).1 = cDb ∧
      (createEventRoute 0 cFailRemote cDb "u" cInput).db = (createEvent cDb "u" cInput).1 ∧
      (createEventRoute 0 cFailRemote cDb "u" cInput).event
        ∈ (createEventRoute 0 cFailRemote cDb "u" cInput).db.events) :=
  ⟨fun _ => rfl, fun _ _ => rfl,
    outbound_failure_isolation 0 cFailRemote cDb "u" cAlldayEvent cInput "network" "network"
      (fun _ => rfl) (fun _ _ => rfl)⟩

/-! Section: C10 — outbound is a no-op without a linked account / selected calendar -/

/-- A store with no GoogleAccount rows at all. -/
def cDbNoAcct : Db := ⟨[cAlldayEvent], [], [], 3⟩

/-- C10: for a user with no GoogleAccount row, or whose account has no
(truthy) selected calendar id, outbound propagation — upsert and delete — is
a complete no-op: the store is unchanged and no remote call is issued, while
the local mutation (the create route) still commits and returns its row. -/
theorem outbound_noop_without_link (tz : Int) (remote : RemoteCalendar) (db : Db)
    (u : String) (e : Event) (d : EventInput)
    (h : findAccount db u = none ∨
      ∃ a, findAccount db u = some a ∧ truthyStr a.selectedCalendarId = false) :
    syncToGoogle tz remote db u e = (db, []) ∧
    deleteFromGoogle remote db u e = (db, []) ∧
    (createEventRoute tz remote db u d).db = (createEvent db u d).1 ∧
    (createEventRoute tz remote db u d).event ∈ (createEventRoute tz remote db u d).db.events ∧
    (createEventRoute tz remote db u d).ops = [] := by
  have hclient : ∀ db' : Db, findAccount db' u = findAccount db u →
      getCalendarClientForUser db' u = none := by
    intro db' hdb
    unfold getCalendarClientForUser
    rcases h with hnone | ⟨a, ha, hsel⟩
    · rw [hdb, hnone]
    · rw [hdb, ha]
      simp [hsel]
  have hacc : findAccount (createEvent db u d).1 u = findAccount db u := rfl
  refine ⟨?_, ?_, ?_, ?_, ?_⟩
  · unfold syncToGoogle
    rw [hclient db rfl]
  · unfold deleteFromGoogle
    rw [hclient db rfl]
  · show (syncToGoogle tz remote (createEvent db u d).1 u (createEvent db u d).2).1 = _
    unfold syncToGoogle
    rw [hclient _ hacc]
  · show (createEvent db u d).2 ∈
      (syncToGoogle tz remote (createEvent db u d).1 u (createEvent db u d).2).1.events
    unfold syncToGoogle
    rw [hclient _ hacc]
    show (createEvent db u d).2 ∈ db.events ++ [(createEvent db u d).2]
    simp
  · show (syncToGoogle tz remote (createEvent db u d).1 u (createEvent db u d).2).2 = []
    unfold syncToGoogle
    rw [hclient _ hacc]

/-- C10 witness: a user with no account row. -/
theorem outbound_noop_without_link_witness :
    (findAccount cDbNoAcct "u" = none ∨
      ∃ a, findAccount cDbNoAcct "u" = some a ∧ truthyStr a.selectedCalendarId = false) ∧
    (syncToGoogle 0 cFailRemote cDbNoAcct "u" cAlldayEvent = (cDbNoAcct, []) ∧
      deleteFromGoogle cFailRemote cDbNoAcct "u" cAlldayEvent = (cDbNoAcct, []) ∧
      (createEventRoute 0 cFailRemote cDbNoAcct "u" cInput).db
        = (createEvent cDbNoAcct "u" cInput).1 ∧
      (createEventRoute 0 cFailRemote cDbNoAcct "u" cInput).event
        ∈ (createEventRoute 0 cFailRemote cDbNoAcct "u" cInput).db.events ∧
      (createEventRoute 0 cFailRemote cDbNoAcct "u" cInput).ops = []) :=
  ⟨Or.inl rfl,
    outbound_noop_without_link 0 cFailRemote cDbNoAcct "u" cAlldayEvent cInput (Or.inl rfl)⟩

/-! Section: C8 — missing credential aborts the pull, surfaced as a client error -/

/-- C8: a pull for a user with no GoogleAccount row aborts before any remote
`events.list` call and before any store mutation (`syncFromGoogle` returns the
store unchanged with no report and zero list calls — it is never retried), and
the manual sync endpoint answers such a user with a client-visible 400 error
without pulling. -/
theorem credential_failure_fails_fast (db : Db) (u cal : String) (cid tok : Option String)
    (ff : Bool) (remote : List GPage) (h : findAccount db u = none) :
    syncFromGoogle db u cal cid tok ff remote = ⟨db, none, 0⟩ ∧
    syncNowRoute db u remote = ⟨db, .err400 "No connected Google calendar", 0⟩ := by
  constructor
  · unfold syncFromGoogle
    rw [h]
  · unfold syncNowRoute
    rw [h]

/-- C8 witness: a store with no account rows. -/
theorem credential_failure_fails_fast_witness :
    findAccount ⟨[], [], [], 0⟩ "u" = none ∧
    (syncFromGoogle ⟨[], [], [], 0⟩ "u" "cal" none none false cPages3
        = ⟨⟨[], [], [], 0⟩, none, 0⟩ ∧
      syncNowRoute ⟨[], [], [], 0⟩ "u" cPages3
        = ⟨⟨[], [], [], 0⟩, .err400 "No connected Google calendar", 0⟩) :=
  ⟨rfl, credential_failure_fails_fast ⟨[], [], [], 0⟩ "u" "cal" none none false cPages3 rfl⟩

/-! Section: C7 — resourceId collision updates the existing channel row -/

/-- The new-channel data of a watch whose resourceId collides with `cChannel`. -/
def cChData : ChannelData := ⟨"u", "cal2", "chNEW", "r1", 99, some "newtok"⟩

/-- C7: saving a watch whose fresh channelId matches no row but whose remote
resourceId already exists hits the P2002 unique-constraint collision and falls
back to updating the existing row keyed by that resourceId in place — new
channelId, calendarId, expiration, and cursor (a truthy primed token
overwrites, a falsy one keeps the stored cursor) — never inserting a
duplicate: the table keeps its length, its resourceId column is unchanged and
still duplicate-free, and exactly one row holds the colliding resourceId. -/
theorem watch_resource_collision_updates_in_place (chs : List Channel) (d : ChannelData)
    (r : Channel)
    (hfresh : ∀ c ∈ chs, c.channelId ≠ d.channelId)
    (hmem : r ∈ chs) (hrid : r.resourceId = d.resourceId)
    (hnodup : (chs.map Channel.resourceId).Nodup) :
    saveWatchChannel chs d = chs.map (fun c =>
      if c.resourceId = d.resourceId then
        { c with userId := d.userId, calendarId := d.calendarId, channelId := d.channelId
                 expiration := d.expiration, syncToken := updToken c.syncToken d.syncToken }
      else c) ∧
    (saveWatchChannel chs d).length = chs.length ∧
    (saveWatchChannel chs d).map Channel.resourceId = chs.map Channel.resourceId ∧
    ((saveWatchChannel chs d).map Channel.resourceId).count d.resourceId = 1 ∧
    ((saveWatchChannel chs d).map Channel.resourceId).Nodup ∧
    { r with userId := d.userId, calendarId := d.calendarId, channelId := d.channelId
             expiration := d.expiration, syncToken := updToken r.syncToken d.syncToken }
      ∈ saveWatchChannel chs d := by
  have hfind : chs.find? (fun c => c.channelId = d.channelId) = none := by
    rw [List.find?_eq_none]
    intro c hc
    simpa using hfresh c hc
  have hany : chs.any (fun c => c.resourceId = d.resourceId) = true := by
    rw [List.any_eq_true]
    exact ⟨r, hmem, by simpa using hrid⟩
  have hups : channelUpsertByChannelId chs d = .error "P2002:resourceId" := by
    unfold channelUpsertByChannelId
    rw [hfind]
    simp only [hany, if_pos]
  have heq : saveWatchChannel chs d = chs.map (fun c =>
      if c.resourceId = d.resourceId then
        { c with userId := d.userId, calendarId := d.calendarId, channelId := d.channelId
                 expiration := d.expiration, syncToken := updToken c.syncToken d.syncToken }
      else c) := by
    unfold saveWatchChannel
    rw [hups]
  have hres : (saveWatchChannel chs d).map Channel.resourceId = chs.map Channel.resourceId := by
    rw [heq, List.map_map]
    refine List.map_congr_left ?_
    intro c _
    by_cases hc : c.resourceId = d.resourceId <;> simp [hc]
  have hmemres : d.resourceId ∈ chs.map Channel.resourceId :=
    hrid ▸ List.mem_map_of_mem Channel.resourceId hmem
  refine ⟨heq, by rw [heq, List.length_map], hres, ?_, by rw [hres]; exact hnodup, ?_⟩
  · rw [hres]
    exact List.count_eq_one_of_mem hnodup hmemres
  · rw [heq]
    have := List.mem_map_of_mem (fun c =>
      if c.resourceId = d.resourceId then
        { c with userId := d.userId, calendarId := d.calendarId, channelId := d.channelId
                 expiration := d.expiration, syncToken := updToken c.syncToken d.syncToken }
      else c) hmem
    simpa [hrid] using this

/-- C7 witness: the collision at the concrete channel table. -/
theorem watch_resource_collision_witness :
    (∀ c ∈ [cChannel], c.channelId ≠ cChData.channelId) ∧
    cChannel ∈ [cChannel] ∧ cChannel.resourceId = cChData.resourceId ∧
    (([cChannel].map Channel.resourceId).Nodup) ∧
    (saveWatchChannel [cChannel] cChData).length = [cChannel].length ∧
    { cChannel with userId := cChData.userId, calendarId := cChData.calendarId
                    channelId := cChData.channelId, expiration := cChData.expiration
                    syncToken := updToken cChannel.syncToken cChData.syncToken }
      ∈ saveWatchChannel [cChannel] cChData := by
  have h := watch_resource_collision_updates_in_place [cChannel] cChData cChannel
    (by decide) (by decide) (by decide) (by decide)
  exact ⟨by decide, by decide, by decide, by decide, h.2.1, h.2.2.2.2.2⟩

/-! Section: Bookkeeping lemmas about the inbound loop -/

/-- One upsert leaves total/calls/deleted alone and bumps created+updated by 1. -/
theorem upsertOne_meta (u cal : String) (snap : List Event) (st : SyncState) (ev : VEvent) :
    (upsertOne u cal snap st ev).total = st.total ∧
    (upsertOne u cal snap st ev).calls = st.calls ∧
    (upsertOne u cal snap st ev).deleted = st.deleted ∧
    (upsertOne u cal snap st ev).created + (upsertOne u cal snap st ev).updated
      = st.created + st.updated + 1 := by
  unfold upsertOne
  cases findExisting snap u ev.id <;> simp <;> omega

/-- The batch loop leaves total/calls/deleted alone and bumps created+updated
by the number of valid events. -/
theorem upsertBatch_meta (u cal : String) (snap : List Event) :
    ∀ (evs : List VEvent) (st : SyncState),
    (upsertBatch u cal snap st evs).total = st.total ∧
    (upsertBatch u cal snap st evs).calls = st.calls ∧
    (upsertBatch u cal snap st evs).deleted = st.deleted ∧
    (upsertBatch u cal snap st evs).created + (upsertBatch u cal snap st evs).updated
      = st.created + st.updated + evs.length := by
  intro evs
  induction evs with
  | nil => intro st; simp [upsertBatch]
  | cons ev rest ih =>
    intro st
    have h1 := upsertOne_meta u cal snap st ev
    have h2 := ih (upsertOne u cal snap st ev)
    refine ⟨?_, ?_, ?_, ?_⟩ <;>
      simp only [upsertBatch, h2.1, h2.2.1, h2.2.2.1, h1.1, h1.2.1, h1.2.2.1,
        List.length_cons]
    omega

/-- Page processing leaves total/calls alone, adds the number of rows matched
by the cancelled-ids delete to `deleted`, and bumps created+updated by the
number of valid events of the page. -/
theorem processPage_meta (u cal : String) (st : SyncState) (items : List GItem) :
    (processPage u cal st items).total = st.total ∧
    (processPage u cal st items).calls = st.calls ∧
    (processPage u cal st items).deleted
      = st.deleted + (st.events.filter (matchesCancelled u (classifyItems items).1)).length ∧
    (processPage u cal st items).created + (processPage u cal st items).updated
      = st.created + st.updated + (classifyItems items).2.length := by
  unfold processPage
  have h := upsertBatch_meta u cal
    (st.events.filter (fun e => !(matchesCancelled u (classifyItems items).1 e)))
    (classifyItems items).2
    { st with
      events := st.events.filter (fun e => !(matchesCancelled u (classifyItems items).1 e))
      deleted := st.deleted
        + (st.events.filter (matchesCancelled u (classifyItems items).1)).length }
  exact ⟨h.1, h.2.1, h.2.2.1, h.2.2.2⟩

/-- Against an empty cancelled-ids list nothing matches the batch delete. -/
theorem matchesCancelled_nil (u : String) (e : Event) :
    matchesCancelled u [] e = false := by
  unfold matchesCancelled
  cases e.googleEventId <;> simp

/-- The batch-delete match for a single cancelled id is exactly the
(user, remote event id) pair match. -/
theorem matchesCancelled_singleton (u iid : String) (e : Event) :
    matchesCancelled u [iid] e = true ↔ (e.userId = u ∧ e.googleEventId = some iid) := by
  unfold matchesCancelled
  cases h : e.googleEventId <;> simp [h, List.contains]

/-- A pull whose remote answers with one final page (no `nextPageToken`, no
`nextSyncToken`) for a linked user reduces to processing that page; the
channel table is untouched. -/
theorem syncFromGoogle_single_page (db : Db) (u cal : String) (cid tok : Option String)
    (ff : Bool) (a : Account) (items : List GItem)
    (ha : findAccount db u = some a) :
    syncFromGoogle db u cal cid tok ff [⟨items, none, none⟩] =
      { db := { db with
          events := (processPage u cal
            ⟨db.events, db.nextEventId, 0, 0, 0, items.length, 1⟩ items).events
          nextEventId := (processPage u cal
            ⟨db.events, db.nextEventId, 0, 0, 0, items.length, 1⟩ items).nextId }
        result := some
          { total := (processPage u cal
              ⟨db.events, db.nextEventId, 0, 0, 0, items.length, 1⟩ items).total
            created := (processPage u cal
              ⟨db.events, db.nextEventId, 0, 0, 0, items.length, 1⟩ items).created
            updated := (processPage u cal
              ⟨db.events, db.nextEventId, 0, 0, 0, items.length, 1⟩ items).updated
            deleted := (processPage u cal
              ⟨db.events, db.nextEventId, 0, 0, 0, items.length, 1⟩ items).deleted
            nextSyncToken := none }
        listCalls := (processPage u cal
          ⟨db.events, db.nextEventId, 0, 0, 0, items.length, 1⟩ items).calls } := by
  unfold syncFromGoogle
  rw [ha]
  simp [syncPages, truthyStr]

/-! Section: C4 — cancelled items delete by (user, remote event id), idempotently -/

/-- C4: a remote item with a cancellation marker deletes the local rows
matching (user, remote event id) — the batch-delete predicate is exactly that
pair match — and when no row matches, the pull neither errors nor creates a
row: the store comes back unchanged.  In both cases the pull completes (a
report is produced) and processing continues: the cancelled item contributes
only its id to the cancelled list and nothing to the valid list, whatever
follows it on the page. -/
theorem cancelled_item_idempotent_delete (db : Db) (u cal : String) (cid tok : Option String)
    (ff : Bool) (a : Account) (item : GItem) (iid : String)
    (ha : findAccount db u = some a)
    (hid : item.id = some iid) (hne : iid ≠ "") (hcan : item.status = some "cancelled") :
    (syncFromGoogle db u cal cid tok ff [⟨[item], none, none⟩]).result.isSome = true ∧
    (syncFromGoogle db u cal cid tok ff [⟨[item], none, none⟩]).db.events
      = db.events.filter (fun e => !(matchesCancelled u [iid] e)) ∧
    (∀ e : Event, matchesCancelled u [iid] e = true ↔
      (e.userId = u ∧ e.googleEventId = some iid)) ∧
    (syncFromGoogle db u cal cid tok ff [⟨[item], none, none⟩]).db.channels = db.channels ∧
    (syncFromGoogle db u cal cid tok ff [⟨[item], none, none⟩]).db.nextEventId
      = db.nextEventId ∧
    ((∀ e ∈ db.events, ¬(e.userId = u ∧ e.googleEventId = some iid)) →
      (syncFromGoogle db u cal cid tok ff [⟨[item], none, none⟩]).db.events = db.events) ∧
    (∀ rest, classifyItems (item :: rest)
      = (iid :: (classifyItems rest).1, (classifyItems rest).2)) := by
  have hcls : ∀ rest, classifyItems (item :: rest)
      = (iid :: (classifyItems rest).1, (classifyItems rest).2) := by
    intro rest
    simp [classifyItems, hid, hne, hcan]
  have hone : classifyItems [item] = ([iid], []) := by
    rw [hcls []]
    rfl
  have hred := syncFromGoogle_single_page db u cal cid tok ff a [item] ha
  have hpp : processPage u cal ⟨db.events, db.nextEventId, 0, 0, 0, 1, 1⟩ [item]
      = { events := db.events.filter (fun e => !(matchesCancelled u [iid] e))
          nextId := db.nextEventId
          created := 0, updated := 0
          deleted := 0 + (db.events.filter (matchesCancelled u [iid])).length
          total := 1, calls := 1 } := by
    unfold processPage
    rw [hone]
    simp [upsertBatch]
  rw [List.length_cons, List.length_nil] at hred
  refine ⟨?_, ?_, fun e => matchesCancelled_singleton u iid e, ?_, ?_, ?_, hcls⟩
  · rw [hred]
    rfl
  · rw [hred]
    show (processPage u cal ⟨db.events, db.nextEventId, 0, 0, 0, 1, 1⟩ [item]).events = _
    rw [hpp]
  · rw [hred]
  · rw [hred]
    show (processPage u cal ⟨db.events, db.nextEventId, 0, 0, 0, 1, 1⟩ [item]).nextId = _
    rw [hpp]
  · intro hnomatch
    rw [hred]
    show (processPage u cal ⟨db.events, db.nextEventId, 0, 0, 0, 1, 1⟩ [item]).events = _
    rw [hpp]
    simp only [List.filter_eq_self]
    intro e he
    have : ¬(matchesCancelled u [iid] e = true) := by
      rw [matchesCancelled_singleton]
      exact hnomatch e he
    simp [this]

/-- C4 witness: the cancelled item "gX" against a store holding a matching
row, applied through the theorem. -/
theorem cancelled_item_idempotent_delete_witness :
    findAccount cDb "u" = some cAccount ∧
    cCancelledItem.id = some "gX" ∧
    (syncFromGoogle cDb "u" "cal" none none false
      [⟨[cCancelledItem], none, none⟩]).result.isSome = true ∧
    (syncFromGoogle cDb "u" "cal" none none false
      [⟨[cCancelledItem], none, none⟩]).db.events
      = cDb.events.filter (fun e => !(matchesCancelled "u" ["gX"] e)) := by
  have h := cancelled_item_idempotent_delete cDb "u" "cal" none none false cAccount
    cCancelledItem "gX" rfl rfl (by decide) rfl
  exact ⟨rfl, rfl, h.1, h.2.1⟩

/-! Section: C5 — malformed items are skipped, the rest of the page is processed -/

/-- A remote item that the classifier accepts as an active, well-formed event. -/
def wellFormedActive (g : GItem) (iid : String) : Prop :=
  g.id = some iid ∧ iid ≠ "" ∧ g.status ≠ some "cancelled" ∧
  (rawTime g.start).isSome ∧ (rawTime g.end_).isSome

/-- Classifier step on an active item with both time values present. -/
theorem classifyItems_cons_active (g : GItem) (iid : String) (s e : Int) (rest : List GItem)
    (hgid : g.id = some iid) (hne : iid ≠ "") (hst : g.status ≠ some "cancelled")
    (hs : rawTime g.start = some s) (he : rawTime g.end_ = some e) :
    classifyItems (g :: rest) = ((classifyItems rest).1,
      ⟨iid, g.summary, orNull g.description, orNull g.location, s, e,
        hasDateOnly g.start, g.recurringEventId, orNull g.etag⟩ :: (classifyItems rest).2) := by
  simp [classifyItems, hgid, hne, hst, hs, he]

/-- Classifier step on an active item missing its start or end value: the item
is skipped and classification of the rest is unaffected. -/
theorem classifyItems_cons_malformed (g : GItem) (iid : String) (rest : List GItem)
    (hgid : g.id = some iid) (hne : iid ≠ "") (hst : g.status ≠ some "cancelled")
    (hmiss : rawTime g.start = none ∨ rawTime g.end_ = none) :
    classifyItems (g :: rest) = classifyItems rest := by
  rcases hmiss with h | h
  · cases he : rawTime g.end_ <;> simp [classifyItems, hgid, hne, hst, h, he]
  · cases hs : rawTime g.start <;> simp [classifyItems, hgid, hne, hst, h, hs]

/-- C5: a page holding one active item with a missing start (or end) value
alongside two well-formed items classifies to no cancelled ids and exactly the
two well-formed events in order — the malformed item is skipped — and the pull
completes with a report of 3 fetched items, 2 processed upserts and 0 deletes. -/
theorem malformed_item_tolerance (db : Db) (u cal : String) (cid tok : Option String)
    (ff : Bool) (a : Account) (bad g1 g2 : GItem) (b i1 i2 : String)
    (ha : findAccount db u = some a)
    (hbid : bad.id = some b) (hbne : b ≠ "") (hbst : bad.status ≠ some "cancelled")
    (hbmiss : rawTime bad.start = none ∨ rawTime bad.end_ = none)
    (h1 : wellFormedActive g1 i1) (h2 : wellFormedActive g2 i2) :
    (classifyItems [bad, g1, g2]).1 = [] ∧
    (classifyItems [bad, g1, g2]).2.map VEvent.id = [i1, i2] ∧
    (syncFromGoogle db u cal cid tok ff [⟨[bad, g1, g2], none, none⟩]).result.isSome
      = true ∧
    (syncFromGoogle db u cal cid tok ff [⟨[bad, g1, g2], none, none⟩]).result.map
      SyncResult.total = some 3 ∧
    (syncFromGoogle db u cal cid tok ff [⟨[bad, g1, g2], none, none⟩]).result.map
      (fun r => r.created + r.updated) = some 2 ∧
    (syncFromGoogle db u cal cid tok ff [⟨[bad, g1, g2], none, none⟩]).result.map
      SyncResult.deleted = some 0 := by
  obtain ⟨h1id, h1ne, h1st, h1s, h1e⟩ := h1
  obtain ⟨h2id, h2ne, h2st, h2s, h2e⟩ := h2
  obtain ⟨s1, hs1⟩ := Option.isSome_iff_exists.mp h1s
  obtain ⟨e1, he1⟩ := Option.isSome_iff_exists.mp h1e
  obtain ⟨s2, hs2⟩ := Option.isSome_iff_exists.mp h2s
  obtain ⟨e2, he2⟩ := Option.isSome_iff_exists.mp h2e
  have hcls2 : classifyItems [g2] = ([],
      [⟨i2, g2.summary, orNull g2.description, orNull g2.location, s2, e2,
        hasDateOnly g2.start, g2.recurringEventId, orNull g2.etag⟩]) := by
    rw [classifyItems_cons_active g2 i2 s2 e2 [] h2id h2ne h2st hs2 he2]
    rfl
  have hcls12 : classifyItems [g1, g2] = ([],
      [⟨i1, g1.summary, orNull g1.description, orNull g1.location, s1, e1,
          hasDateOnly g1.start, g1.recurringEventId, orNull g1.etag⟩,
        ⟨i2, g2.summary, orNull g2.description, orNull g2.location, s2, e2,
          hasDateOnly g2.start, g2.recurringEventId, orNull g2.etag⟩]) := by
    rw [classifyItems_cons_active g1 i1 s1 e1 [g2] h1id h1ne h1st hs1 he1, hcls2]
  have hcls : classifyItems [bad, g1, g2] = ([],
      [⟨i1, g1.summary, orNull g1.description, orNull g1.location, s1, e1,
          hasDateOnly g1.start, g1.recurringEventId, orNull g1.etag⟩,
        ⟨i2, g2.summary, orNull g2.description, orNull g2.location, s2, e2,
          hasDateOnly g2.start, g2.recurringEventId, orNull g2.etag⟩]) := by
    rw [classifyItems_cons_malformed bad b [g1, g2] hbid hbne hbst hbmiss, hcls12]
  have hred := syncFromGoogle_single_page db u cal cid tok ff a [bad, g1, g2] ha
  have hmeta := processPage_meta u cal ⟨db.events, db.nextEventId, 0, 0, 0, 3, 1⟩
    [bad, g1, g2]
  simp only [List.length_cons, List.length_nil] at hred
  have hdel0 : (processPage u cal ⟨db.events, db.nextEventId, 0, 0, 0, 3, 1⟩
      [bad, g1, g2]).deleted = 0 := by
    rw [hmeta.2.2.1, hcls]
    simp [matchesCancelled_nil]
  have hcu2 : (processPage u cal ⟨db.events, db.nextEventId, 0, 0, 0, 3, 1⟩
        [bad, g1, g2]).created
      + (processPage u cal ⟨db.events, db.nextEventId, 0, 0, 0, 3, 1⟩
        [bad, g1, g2]).updated = 2 := by
    rw [hmeta.2.2.2, hcls]
    rfl
  refine ⟨by rw [hcls], by rw [hcls]; rfl, ?_, ?_, ?_, ?_⟩
  · rw [hred]
    rfl
  · rw [hred]
    show some (processPage u cal ⟨db.events, db.nextEventId, 0, 0, 0, 3, 1⟩
      [bad, g1, g2]).total = some 3
    rw [hmeta.1]
  · rw [hred]
    show some ((processPage u cal ⟨db.events, db.nextEventId, 0, 0, 0, 3, 1⟩
        [bad, g1, g2]).created
      + (processPage u cal ⟨db.events, db.nextEventId, 0, 0, 0, 3, 1⟩
        [bad, g1, g2]).updated) = some 2
    rw [hcu2]
  · rw [hred]
    show some (processPage u cal ⟨db.events, db.nextEventId, 0, 0, 0, 3, 1⟩
      [bad, g1, g2]).deleted = some 0
    rw [hdel0]

/-- C5 witness: the malformed item beside two well-formed items, on an empty
store for the linked user. -/
theorem malformed_item_tolerance_witness :
    findAccount cDbEmpty "u" = some cAccount ∧
    rawTime cBadItem.start = none ∧
    wellFormedActive (cTimedItem "a") "a" ∧
    (syncFromGoogle cDbEmpty "u" "cal" none none false
      [⟨[cBadItem, cTimedItem "a", cTimedItem "b"], none, none⟩]).result.map
      SyncResult.total = some 3 ∧
    (syncFromGoogle cDbEmpty "u" "cal" none none false
      [⟨[cBadItem, cTimedItem "a", cTimedItem "b"], none, none⟩]).result.map
      (fun r => r.created + r.updated) = some 2 := by
  have h := malformed_item_tolerance cDbEmpty "u" "cal" none none false cAccount
    cBadItem (cTimedItem "a") (cTimedItem "b") "bad" "a" "b" rfl rfl (by decide)
    (by decide) (Or.inl rfl) ⟨rfl, by decide, by decide, rfl, rfl⟩
    ⟨rfl, by decide, by decide, rfl, rfl⟩
  exact ⟨rfl, rfl, ⟨rfl, by decide, by decide, rfl, rfl⟩, h.2.2.2.1, h.2.2.2.2.1⟩

/-! Section: C2 — pagination is followed to exhaustion, the final cursor persisted -/

/-- A one-page loop run: process the page; the token survives only if truthy. -/
theorem syncPages_singleton (u cal : String) (p : GPage) (st : SyncState)
    (tok : Option String) :
    syncPages u cal [p] st tok
      = (processPage u cal
          { st with total := st.total + p.items.length, calls := st.calls + 1 } p.items,
        if truthyStr p.nextSyncToken then p.nextSyncToken else tok) := by
  simp [syncPages]

/-- With a truthy next-page token the loop continues into the rest. -/
theorem syncPages_cons_continue (u cal : String) (p : GPage) (rest : List GPage)
    (st : SyncState) (tok : Option String) (hp : truthyStr p.nextPageToken = true) :
    syncPages u cal (p :: rest) st tok
      = syncPages u cal rest
          (processPage u cal
            { st with total := st.total + p.items.length, calls := st.calls + 1 } p.items)
          (if truthyStr p.nextSyncToken then p.nextSyncToken else tok) := by
  simp [syncPages, hp]

/-- The page loop over a response whose non-final pages all carry a truthy
next-page token and no sync token, and whose final page carries the sync token
`lastTok`: every page's items are counted, one list call is made per page, and
the accumulated cursor is exactly the final page's. -/
theorem syncPages_pagination (u cal : String) (lastTok : String) (hlt : lastTok ≠ "") :
    ∀ (pages : List GPage) (st : SyncState) (tok : Option String),
    (∀ p ∈ pages.dropLast, truthyStr p.nextPageToken = true) →
    (∀ p ∈ pages.dropLast, p.nextSyncToken = none) →
    pages.getLast?.map GPage.nextSyncToken = some (some lastTok) →
    (syncPages u cal pages st tok).1.total
        = st.total + (pages.map (fun p => p.items.length)).sum ∧
    (syncPages u cal pages st tok).1.calls = st.calls + pages.length ∧
    (syncPages u cal pages st tok).2 = some lastTok := by
  intro pages
  induction pages with
  | nil => intro st tok _ _ hlast; simp at hlast
  | cons p rest ih =>
    intro st tok hcont hmid hlast
    cases rest with
    | nil =>
      have hp : p.nextSyncToken = some lastTok := by
        simpa using hlast
      have hm := processPage_meta u cal
        { st with total := st.total + p.items.length, calls := st.calls + 1 } p.items
      rw [syncPages_singleton]
      refine ⟨?_, ?_, ?_⟩
      · rw [hm.1]
        simp
      · rw [hm.2.1]
        simp
      · rw [hp]
        simp [truthyStr, hlt]
    | cons q t =>
      have hp : truthyStr p.nextPageToken = true := by
        apply hcont
        rw [List.dropLast_cons₂]
        exact List.mem_cons_self _ _
      have hpn : p.nextSyncToken = none := by
        apply hmid
        rw [List.dropLast_cons₂]
        exact List.mem_cons_self _ _
      have hcont' : ∀ x ∈ (q :: t).dropLast, truthyStr x.nextPageToken = true := by
        intro x hx
        apply hcont
        rw [List.dropLast_cons₂]
        exact List.mem_cons_of_mem _ hx
      have hmid' : ∀ x ∈ (q :: t).dropLast, x.nextSyncToken = none := by
        intro x hx
        apply hmid
        rw [List.dropLast_cons₂]
        exact List.mem_cons_of_mem _ hx
      have hlast' : (q :: t).getLast?.map GPage.nextSyncToken = some (some lastTok) := by
        rwa [List.getLast?_cons_cons] at hlast
      rw [syncPages_cons_continue u cal p (q :: t) st tok hp, hpn]
      have hm := processPage_meta u cal
        { st with total := st.total + p.items.length, calls := st.calls + 1 } p.items
      have hrec := ih (processPage u cal
        { st with total := st.total + p.items.length, calls := st.calls + 1 } p.items)
        (if truthyStr none then none else tok) hcont' hmid' hlast'
      refine ⟨?_, ?_, ?_⟩
      · rw [hrec.1, hm.1]
        simp
        omega
      · rw [hrec.2.1, hm.2.1]
        simp
        omega
      · exact hrec.2.2

/-- C2: against a paginated response whose non-final pages each carry a
next-page token (and no cursor) and whose final page carries cursor
`lastTok`, the pull for a linked user counts the items of every page (one
remote list call per page, total = the sum over all pages), reports exactly
the final page's cursor, and persists it onto the channel identified by the
supplied channel id — the channel row with that id gets `syncToken = lastTok`
— while with no channel id supplied, the channel table is left untouched. -/
theorem pagination_follows_all_pages (db : Db) (u cal : String) (tok0 : Option String)
    (ff : Bool) (pages : List GPage) (lastTok cid : String) (a : Account)
    (ha : findAccount db u = some a)
    (hcont : ∀ p ∈ pages.dropLast, truthyStr p.nextPageToken = true)
    (hmid : ∀ p ∈ pages.dropLast, p.nextSyncToken = none)
    (hlast : pages.getLast?.map GPage.nextSyncToken = some (some lastTok))
    (hlt : lastTok ≠ "") (hcid : cid ≠ "") :
    (syncFromGoogle db u cal (some cid) tok0 ff pages).result.map SyncResult.total
      = some (pages.map (fun p => p.items.length)).sum ∧
    (syncFromGoogle db u cal (some cid) tok0 ff pages).listCalls = pages.length ∧
    (syncFromGoogle db u cal (some cid) tok0 ff pages).result.map SyncResult.nextSyncToken
      = some (some lastTok) ∧
    (syncFromGoogle db u cal (some cid) tok0 ff pages).db.channels
      = setChannelToken db.channels cid lastTok ∧
    (∀ ch ∈ db.channels, ch.channelId = cid →
      { ch with syncToken := some lastTok }
        ∈ (syncFromGoogle db u cal (some cid) tok0 ff pages).db.channels) ∧
    (syncFromGoogle db u cal none tok0 ff pages).db.channels = db.channels := by
  have hsp := syncPages_pagination u cal lastTok hlt pages
    ⟨db.events, db.nextEventId, 0, 0, 0, 0, 0⟩ none hcont hmid hlast
  have hchan : ∀ cid' : Option String,
      (syncFromGoogle db u cal cid' tok0 ff pages).db.channels
        = (if truthyStr (some lastTok) && truthyStr cid' then
            setChannelToken db.channels (cid'.getD "") lastTok
          else db.channels) ∧
      (syncFromGoogle db u cal cid' tok0 ff pages).result.map SyncResult.total
        = some (syncPages u cal pages ⟨db.events, db.nextEventId, 0, 0, 0, 0, 0⟩ none).1.total ∧
      (syncFromGoogle db u cal cid' tok0 ff pages).listCalls
        = (syncPages u cal pages ⟨db.events, db.nextEventId, 0, 0, 0, 0, 0⟩ none).1.calls ∧
      (syncFromGoogle db u cal cid' tok0 ff pages).result.map SyncResult.nextSyncToken
        = some (some lastTok) := by
    intro cid'
    unfold syncFromGoogle
    rw [ha]
    simp only [hsp.2.2]
    refine ⟨?_, ?_, ?_, ?_⟩ <;> trivial
  refine ⟨?_, ?_, ?_, ?_, ?_, ?_⟩
  · rw [(hchan (some cid)).2.1, hsp.1]
    simp
  · rw [(hchan (some cid)).2.2.1, hsp.2.1]
    simp
  · exact (hchan (some cid)).2.2.2
  · rw [(hchan (some cid)).1]
    simp [truthyStr, hlt, hcid]
  · intro ch hmem hchid
    rw [(hchan (some cid)).1]
    simp only [truthyStr, hlt, hcid]
    have : { ch with syncToken := some lastTok }
        ∈ setChannelToken db.channels cid lastTok := by
      unfold setChannelToken
      have := List.mem_map_of_mem
        (fun c => if c.channelId = cid then { c with syncToken := some lastTok } else c) hmem
      simpa [hchid] using this
    simpa [hlt, hcid] using this
  · rw [(hchan none).1]
    simp [truthyStr]

/-- C2 witness: the three-page response where only page 3 carries the cursor,
pulled for channel "ch1". -/
theorem pagination_follows_all_pages_witness :
    findAccount cDbChan "u" = some cAccount ∧
    (∀ p ∈ cPages3.dropLast, truthyStr p.nextPageToken = true) ∧
    (∀ p ∈ cPages3.dropLast, p.nextSyncToken = none) ∧
    cPages3.getLast?.map GPage.nextSyncToken = some (some "TOK3") ∧
    (syncFromGoogle cDbChan "u" "cal" (some "ch1") (some "old") false cPages3).result.map
      SyncResult.total = some (cPages3.map (fun p => p.items.length)).sum ∧
    (syncFromGoogle cDbChan "u" "cal" (some "ch1") (some "old") false cPages3).listCalls
      = cPages3.length ∧
    (syncFromGoogle cDbChan "u" "cal" (some "ch1") (some "old") false cPages3).db.channels
      = setChannelToken cDbChan.channels "ch1" "TOK3" ∧
    (syncFromGoogle cDbChan "u" "cal" none (some "old") false cPages3).db.channels
      = cDbChan.channels := by
  have h := pagination_follows_all_pages cDbChan "u" "cal" (some "old") false cPages3
    "TOK3" "ch1" cAccount rfl (by decide) (by decide) (by decide) (by decide) (by decide)
  exact ⟨rfl, by decide, by decide, by decide, h.1, h.2.1, h.2.2.2.1, h.2.2.2.2.2⟩

/-! Section: C1 — no two rows ever share a (user, remote event id) pair -/

/-- Two rows do not collide on the (userId, googleEventId) key (rows with a
null remote id never collide). -/
def distinctRemoteKey (e1 e2 : Event) : Prop :=
  ¬(e1.userId = e2.userId ∧ e1.googleEventId = e2.googleEventId ∧ e1.googleEventId ≠ none)

instance (e1 e2 : Event) : Decidable (distinctRemoteKey e1 e2) := by
  unfold distinctRemoteKey
  infer_instance

/-- The invariant the inbound upsert maintains: pairwise, no two rows of the
event table share a (userId, googleEventId) pair. -/
def uniqueRemoteIds (events : List Event) : Prop :=
  events.Pairwise distinctRemoteKey

instance (l : List Event) : Decidable (uniqueRemoteIds l) := by
  unfold uniqueRemoteIds
  infer_instance

/-- The (truthy) ids present on a page's items. -/
def presentIds (items : List GItem) : List String :=
  items.filterMap (fun i =>
    match i.id with
    | some s => if s = "" then none else some s
    | none => none)

/-- A row updated in place by the inbound upsert keeps its (userId,
googleEventId) key. -/
theorem pairwise_key_map (l : List Event) (f : Event → Event)
    (hf : ∀ e, (f e).userId = e.userId ∧ (f e).googleEventId = e.googleEventId)
    (h : l.Pairwise distinctRemoteKey) : (l.map f).Pairwise distinctRemoteKey := by
  rw [List.pairwise_map]
  refine h.imp ?_
  intro a b hab
  unfold distinctRemoteKey at hab ⊢
  rw [(hf a).1, (hf a).2, (hf b).1, (hf b).2]
  exact hab

/-- The snapshot lookup misses exactly when no row carries the pair. -/
theorem findExisting_eq_none_iff (db : List Event) (u g : String) :
    findExisting db u g = none ↔ ∀ e ∈ db, ¬(e.userId = u ∧ e.googleEventId = some g) := by
  unfold findExisting
  rw [Option.map_eq_none', List.getLast?_eq_none_iff, List.filter_eq_nil_iff]
  constructor
  · intro h e he hc
    exact h e he (by simp [hc.1, hc.2])
  · intro h e he hb
    simp only [Bool.and_eq_true, decide_eq_true_eq] at hb
    exact h e he hb

/-- The update path of one upsert, as an equation on the event table. -/
theorem upsertOne_events_update (u cal : String) (snap : List Event) (st : SyncState)
    (ev : VEvent) (eid : Nat) (h : findExisting snap u ev.id = some eid) :
    (upsertOne u cal snap st ev).events
      = st.events.map (fun e => if e.id = eid then applyEventData e (mkEventData cal ev) else e) := by
  unfold upsertOne
  rw [h]

/-- The create path of one upsert, as an equation on the event table. -/
theorem upsertOne_events_create (u cal : String) (snap : List Event) (st : SyncState)
    (ev : VEvent) (h : findExisting snap u ev.id = none) :
    (upsertOne u cal snap st ev).events
      = st.events ++ [createdEvent st.nextId u ev.id (mkEventData cal ev)] := by
  unfold upsertOne
  rw [h]

/-- The batched upsert preserves key-uniqueness, provided the ids of the
events being upserted are pairwise distinct and every id absent from the
snapshot is also absent from the live table. -/
theorem upsertBatch_unique (u cal : String) (snapshot : List Event) :
    ∀ (evs : List VEvent) (st : SyncState),
    uniqueRemoteIds st.events →
    (∀ ev ∈ evs, findExisting snapshot u ev.id = none →
      ∀ b ∈ st.events, ¬(b.userId = u ∧ b.googleEventId = some ev.id)) →
    (evs.map VEvent.id).Nodup →
    uniqueRemoteIds (upsertBatch u cal snapshot st evs).events := by
  intro evs
  induction evs with
  | nil => intro st h _ _; exact h
  | cons ev rest ih =>
    intro st hinv habs hnodup
    have hstep : upsertBatch u cal snapshot st (ev :: rest)
        = upsertBatch u cal snapshot (upsertOne u cal snapshot st ev) rest := rfl
    rw [hstep]
    rw [List.map_cons, List.nodup_cons] at hnodup
    cases hfe : findExisting snapshot u ev.id with
    | some eid =>
      apply ih
      · show uniqueRemoteIds (upsertOne u cal snapshot st ev).events
        rw [upsertOne_events_update u cal snapshot st ev eid hfe]
        refine pairwise_key_map st.events _ (fun e => ?_) hinv
        by_cases h : e.id = eid <;> simp [h, applyEventData]
      · intro ev' hev' hfe' b hb
        rw [upsertOne_events_update u cal snapshot st ev eid hfe] at hb
        obtain ⟨b0, hb0, rfl⟩ := List.mem_map.mp hb
        have hkey : (if b0.id = eid then applyEventData b0 (mkEventData cal ev) else b0).userId
              = b0.userId
            ∧ (if b0.id = eid then applyEventData b0 (mkEventData cal ev) else b0).googleEventId
              = b0.googleEventId := by
          by_cases h : b0.id = eid <;> simp [h, applyEventData]
        rw [hkey.1, hkey.2]
        exact habs ev' (List.mem_cons_of_mem _ hev') hfe' b0 hb0
      · exact hnodup.2
    | none =>
      apply ih
      · show uniqueRemoteIds (upsertOne u cal snapshot st ev).events
        rw [upsertOne_events_create u cal snapshot st ev hfe]
        unfold uniqueRemoteIds
        rw [List.pairwise_append]
        refine ⟨hinv, List.pairwise_singleton _ _, ?_⟩
        intro a hma b hmb
        rw [List.mem_singleton] at hmb
        subst hmb
        intro hcol
        refine habs ev (List.mem_cons_self _ _) hfe a hma ⟨hcol.1, ?_⟩
        have : a.googleEventId = (createdEvent st.nextId u ev.id (mkEventData cal ev)).googleEventId :=
          hcol.2.1
        simpa [createdEvent] using this
      · intro ev' hev' hfe' b hb
        rw [upsertOne_events_create u cal snapshot st ev hfe] at hb
        rcases List.mem_append.mp hb with hb0 | hb1
        · exact habs ev' (List.mem_cons_of_mem _ hev') hfe' b hb0
        · rw [List.mem_singleton] at hb1
          subst hb1
          intro hcol
          have hgid : some ev.id = some ev'.id := by
            simpa [createdEvent] using hcol.2
          have : ev.id ∈ rest.map VEvent.id :=
            Option.some.inj hgid ▸ List.mem_map_of_mem VEvent.id hev'
          exact hnodup.1 (by simpa using this)
      · exact hnodup.2

/-- Page processing preserves key-uniqueness when the page's valid ids are
pairwise distinct. -/
theorem processPage_unique (u cal : String) (st : SyncState) (items : List GItem)
    (h : uniqueRemoteIds st.events)
    (hids : ((classifyItems items).2.map VEvent.id).Nodup) :
    uniqueRemoteIds (processPage u cal st items).events := by
  unfold processPage
  apply upsertBatch_unique
  · exact List.Pairwise.sublist (List.filter_sublist _) h
  · intro ev _ hfe b hb
    exact (findExisting_eq_none_iff _ u ev.id).mp hfe b hb
  · exact hids

/-- The valid ids of a page are among the (truthy) ids present on its items. -/
theorem classify_ids_sublist : ∀ items : List GItem,
    ((classifyItems items).2.map VEvent.id).Sublist (presentIds items) := by
  intro items
  induction items with
  | nil => simp [classifyItems, presentIds]
  | cons item rest ih =>
    cases hid : item.id with
    | none =>
      have h1 : classifyItems (item :: rest) = classifyItems rest := by
        simp [classifyItems, hid]
      have h2 : presentIds (item :: rest) = presentIds rest := by
        simp [presentIds, List.filterMap_cons, hid]
      rw [h1, h2]
      exact ih
    | some s =>
      by_cases hs : s = ""
      · have h1 : classifyItems (item :: rest) = classifyItems rest := by
          simp [classifyItems, hid, hs]
        have h2 : presentIds (item :: rest) = presentIds rest := by
          simp [presentIds, List.filterMap_cons, hid, hs]
        rw [h1, h2]
        exact ih
      · have h2 : presentIds (item :: rest) = s :: presentIds rest := by
          simp [presentIds, List.filterMap_cons, hid, hs]
        rw [h2]
        by_cases hc : item.status = some "cancelled"
        · have h1 : classifyItems (item :: rest)
              = (s :: (classifyItems rest).1, (classifyItems rest).2) := by
            simp [classifyItems, hid, hs, hc]
          rw [h1]
          exact ih.cons s
        · cases hrs : rawTime item.start with
          | none =>
            have h1 : classifyItems (item :: rest) = classifyItems rest :=
              classifyItems_cons_malformed item s rest hid hs hc (Or.inl hrs)
            rw [h1]
            exact ih.cons s
          | some sv =>
            cases hre : rawTime item.end_ with
            | none =>
              have h1 : classifyItems (item :: rest) = classifyItems rest :=
                classifyItems_cons_malformed item s rest hid hs hc (Or.inr hre)
              rw [h1]
              exact ih.cons s
            | some ev =>
              have h1 := classifyItems_cons_active item s sv ev rest hid hs hc hrs hre
              rw [h1]
              exact ih.cons₂ s

/-- The page loop preserves key-uniqueness when every page's present ids are
pairwise distinct. -/
theorem syncPages_unique (u cal : String) :
    ∀ (pages : List GPage) (st : SyncState) (tok : Option String),
    uniqueRemoteIds st.events →
    (∀ p ∈ pages, (presentIds p.items).Nodup) →
    uniqueRemoteIds (syncPages u cal pages st tok).1.events := by
  intro pages
  induction pages with
  | nil => intro st tok h _; exact h
  | cons p rest ih =>
    intro st tok h hp
    have hnext : uniqueRemoteIds (processPage u cal
        { st with total := st.total + p.items.length, calls := st.calls + 1 } p.items).events :=
      processPage_unique u cal _ p.items h
        (List.Sublist.nodup (classify_ids_sublist p.items) (hp p (List.mem_cons_self _ _)))
    by_cases htk : truthyStr p.nextPageToken = true
    · rw [syncPages_cons_continue u cal p rest st tok htk]
      exact ih _ _ hnext (fun q hq => hp q (List.mem_cons_of_mem _ hq))
    · rw [Bool.not_eq_true] at htk
      have hstop : syncPages u cal (p :: rest) st tok
          = (processPage u cal
              { st with total := st.total + p.items.length, calls := st.calls + 1 } p.items,
            if truthyStr p.nextSyncToken then p.nextSyncToken else tok) := by
        simp [syncPages, htk]
      rw [hstop]
      exact hnext

/-- C1: starting from a table in which no two rows share a (userId,
googleEventId) pair, an inbound pull — whose remote pages never repeat an
event id within one page, as Google's list responses do not — preserves that
invariant: the upsert updates the row found by (user, remote event id) in
place and creates a remote-tagged row only when the lookup missed.  In
particular no two rows of the resulting table share a
(user, remoteCalendarId, remoteEventId) triple. -/
theorem inbound_no_duplicate_remote_ids (db : Db) (u cal : String) (cid tok : Option String)
    (ff : Bool) (remote : List GPage)
    (hinv : uniqueRemoteIds db.events)
    (hpages : ∀ p ∈ remote, (presentIds p.items).Nodup) :
    uniqueRemoteIds (syncFromGoogle db u cal cid tok ff remote).db.events ∧
    (syncFromGoogle db u cal cid tok ff remote).db.events.Pairwise (fun e1 e2 =>
      ¬(e1.userId = e2.userId ∧ e1.googleCalendarId = e2.googleCalendarId ∧
        e1.googleEventId = e2.googleEventId ∧ e1.googleEventId ≠ none)) := by
  have hmain : uniqueRemoteIds (syncFromGoogle db u cal cid tok ff remote).db.events := by
    unfold syncFromGoogle
    cases ha : findAccount db u with
    | none => exact hinv
    | some a =>
      show uniqueRemoteIds
        (syncPages u cal remote ⟨db.events, db.nextEventId, 0, 0, 0, 0, 0⟩ none).1.events
      exact syncPages_unique u cal remote _ none hinv hpages
  refine ⟨hmain, hmain.imp ?_⟩
  intro a b hab hcol
  exact hab ⟨hcol.1, hcol.2.2.1, hcol.2.2.2⟩

/-- C1 witness: a two-row table with distinct remote ids, pulled against a
page holding one update and one create. -/
theorem inbound_no_duplicate_remote_ids_witness :
    uniqueRemoteIds cDb.events ∧
    (∀ p ∈ [(⟨[cTimedItem "gX", cTimedItem "gNEW"], none, none⟩ : GPage)],
      (presentIds p.items).Nodup) ∧
    uniqueRemoteIds (syncFromGoogle cDb "u" "cal" none none false
      [⟨[cTimedItem "gX", cTimedItem "gNEW"], none, none⟩]).db.events := by
  have h := inbound_no_duplicate_remote_ids cDb "u" "cal" none none false
    [⟨[cTimedItem "gX", cTimedItem "gNEW"], none, none⟩] (by decide) (by decide)
  exact ⟨by decide, by decide, h.1⟩

end PlannerX
